import Mathlib

/-!
Verification of the excel-ai-assistant repository (TypeScript sources under
`src/`) against its natural-language specification.  Every definition below is
a shallow embedding of a function of the repository, translated from the
source file named in its doc comment.  JavaScript numbers that only ever hold
cell/token counts are embedded as `Nat`; fallible lookups are `Option`s.
-/

namespace ExcelAI

/-! ## JavaScript string primitives

`String.prototype.trim` removes leading and trailing whitespace.  We embed the
whitespace class used by JavaScript (the code only ever meets ASCII whitespace
and the common Unicode space characters). -/

/-- Whitespace characters recognised by the JavaScript `trim`. -/
def isJsWhitespace (c : Char) : Bool :=
  c = ' ' || c = '\t' || c = '\n' || c = '\r' || c = '\x0b' || c = '\x0c' ||
  c = ' ' || c = ' ' || c = ' ' || c = '﻿'

/-- Embedding of `text.trim()`. -/
def jsTrim (s : String) : String :=
  String.mk (((s.toList.dropWhile isJsWhitespace).reverse.dropWhile isJsWhitespace).reverse)

theorem jsTrim_eq_empty_iff (s : String) :
    jsTrim s = "" ↔ s.toList.all isJsWhitespace = true := by
  unfold jsTrim
  constructor
  · intro h
    have hlist : ((s.toList.dropWhile isJsWhitespace).reverse.dropWhile isJsWhitespace).reverse = [] := by
      have := congrArg String.toList h
      simpa using this
    have h2 : (s.toList.dropWhile isJsWhitespace).reverse.dropWhile isJsWhitespace = [] := by
      simpa using congrArg List.reverse hlist
    rw [List.dropWhile_eq_nil_iff] at h2
    have h3 : ∀ x ∈ s.toList.dropWhile isJsWhitespace, isJsWhitespace x := by
      intro x hx
      exact h2 x (List.mem_reverse.mpr hx)
    have h4 : s.toList.dropWhile isJsWhitespace = [] := by
      cases hd : s.toList.dropWhile isJsWhitespace with
      | nil => rfl
      | cons a t =>
        have ha : isJsWhitespace a := h3 a (by rw [hd]; exact List.mem_cons_self a t)
        have := List.head?_dropWhile_not isJsWhitespace s.toList
        rw [hd] at this
        simp at this
        exact absurd ha (by simpa using this)
    rw [List.dropWhile_eq_nil_iff] at h4
    simpa [List.all_eq_true] using h4
  · intro h
    have h' : ∀ x ∈ s.toList, isJsWhitespace x := by simpa [List.all_eq_true] using h
    have h4 : s.toList.dropWhile isJsWhitespace = [] :=
      List.dropWhile_eq_nil_iff.mpr h'
    rw [h4]
    rfl

theorem jsTrim_append_ne_empty (s t : String) (h : jsTrim s ≠ "") :
    jsTrim (s ++ t) ≠ "" := by
  intro hc
  apply h
  rw [jsTrim_eq_empty_iff] at hc ⊢
  rw [List.all_eq_true] at hc ⊢
  intro x hx
  have hsplit : (s ++ t).toList = s.toList ++ t.toList := by
    show (s ++ t).data = s.data ++ t.data
    exact String.data_append s t
  exact hc x (by rw [hsplit]; exact List.mem_append_left _ hx)

/-! ## `src/utils/token.ts` -/

/-- `const CHARS_PER_TOKEN = 4;` -/
def CHARS_PER_TOKEN : Nat := 4

/-- `estimateTokensFromText` (src/utils/token.ts): zero for blank text,
otherwise `Math.ceil(text.length / CHARS_PER_TOKEN)`. -/
def estimateTokensFromText (text : String) : Nat :=
  if jsTrim text = "" then 0
  else (text.length + (CHARS_PER_TOKEN - 1)) / CHARS_PER_TOKEN

/-! ## `src/llm/tokenEstimator.ts` -/

/-- Input of `estimateRequestTokens`.  `toolsJson` stands for
`JSON.stringify(input.tools)` and `messages` for the message contents. -/
structure TokenEstimateInput where
  systemPrompt : String
  memorySummary : Option String
  contextPackJson : Option String
  messages : List String
  toolsJson : String

structure TokenEstimate where
  inputTokens : Nat
  outputTokens : Nat
  total : Nat
deriving DecidableEq, Repr

/-- `estimateRequestTokens` (src/llm/tokenEstimator.ts): sums the component
estimates (with a fixed overhead of 6 per message) and derives
`outputTokens = Math.ceil(inputTokens * 0.25)`. -/
def estimateRequestTokens (input : TokenEstimateInput) : TokenEstimate :=
  let systemTokens := estimateTokensFromText input.systemPrompt
  let memoryTokens := estimateTokensFromText (input.memorySummary.getD "")
  let contextTokens := estimateTokensFromText (input.contextPackJson.getD "")
  let messageTokens := input.messages.foldl (fun acc m => acc + estimateTokensFromText m + 6) 0
  let toolSchemaTokens := estimateTokensFromText input.toolsJson
  let inputTokens := systemTokens + memoryTokens + contextTokens + messageTokens + toolSchemaTokens
  let outputTokens := (inputTokens + 3) / 4
  { inputTokens := inputTokens, outputTokens := outputTokens, total := inputTokens + outputTokens }

/-! ## `src/utils/citations.ts`

`CITATION_REGEX = /\[\[([^\]]+)\]\]/g` scanned with `matchAll`.  The scanner
below walks the character list exactly as the regex engine does: at each
position it tries to match two opening brackets, a non-empty run of
characters other than a closing bracket, and two closing brackets; on failure
it advances one character.  The fuel argument (initialised with the string
length) only makes the recursion structural — every step consumes at least
one character, so it never runs out. -/

/-- All raw captures of `CITATION_REGEX` in scan order. -/
def citationScanAux : Nat → List Char → List String
  | 0, _ => []
  | _, [] => []
  | fuel + 1, '[' :: '[' :: rest =>
    let body := rest.takeWhile (fun ch => ch ≠ ']')
    match rest.drop body.length with
    | ']' :: ']' :: rem =>
      if body.isEmpty then citationScanAux fuel ('[' :: rest)
      else String.mk body :: citationScanAux fuel rem
    | _ => citationScanAux fuel ('[' :: rest)
  | fuel + 1, _ :: rest => citationScanAux fuel rest

/-- `raw.replace(/^'/, "")`: drop a single leading apostrophe. -/
def dropLeadingQuote (raw : String) : String :=
  match raw.toList with
  | '\x27' :: rest => String.mk rest
  | _ => raw

/-- `.replace(/'!/, "!")`: replace the first `'!` with `!`. -/
def replaceQuoteBangAux : List Char → List Char
  | '\x27' :: '!' :: rest => '!' :: rest
  | c :: rest => c :: replaceQuoteBangAux rest
  | [] => []

def normalizeCitation (raw : String) : String :=
  String.mk (replaceQuoteBangAux (dropLeadingQuote raw).toList)

/-- The trimmed, non-blank, normalized captures, in match order (the loop body
of `extractCitations` before deduplication). -/
def citationMatches (text : String) : List String :=
  (((citationScanAux text.length text.toList).map jsTrim).filter
    (fun raw => raw ≠ "")).map normalizeCitation

structure CitationRef where
  label : String
  address : String
deriving DecidableEq, Repr

/-- `extractCitations` (src/utils/citations.ts): insert each normalized
capture into a `Map` keyed by the normalized address (insertion order, first
occurrence wins because later `set`s overwrite with an identical value) and
return the values. -/
def extractCitations (text : String) : List CitationRef :=
  (citationMatches text).foldl
    (fun acc normalized =>
      if acc.any (fun r => r.address == normalized) then acc
      else acc ++ [{ label := normalized, address := normalized }])
    []

/-- Specification-side deduplication: keep the first occurrence of every
address, in first-seen order ("duplicates (by normalized address) collapse to
one reference"). -/
def specDedupFirstSeen : List String → List String
  | [] => []
  | x :: xs => x :: specDedupFirstSeen (xs.filter (fun y => y ≠ x))
termination_by l => l.length
decreasing_by
  simp only [List.length_cons]
  exact Nat.lt_succ_of_le (List.length_filter_le _ _)

/-! ## JSON-compatible argument values (`src/llm/types.ts`)

Tool-call arguments are `Record<string, unknown>` holding JSON-compatible
values.  JSON numbers are embedded as `Int` (every number parsed from JSON is
finite, so `Number.isFinite` holds for all of them). -/

inductive Json where
  | null
  | str (s : String)
  | num (n : Int)
  | bool (b : Bool)
  | arr (items : List Json)
  | obj (fields : List (String × Json))

/-- `ToolCall` (src/llm/types.ts): `{name, args, reason}`. -/
structure ToolCall where
  name : String
  args : List (String × Json)
  reason : String

def lookupArg (args : List (String × Json)) (key : String) : Option Json :=
  (args.find? (fun p => p.1 == key)).map (fun p => p.2)

/-- `key in call.args`. -/
def hasArg (args : List (String × Json)) (key : String) : Bool :=
  (args.find? (fun p => p.1 == key)).isSome

/-- `String(v)` for the values the code coerces (JavaScript semantics).  The
`?? ""` fallbacks in the code intercept `null`, so the `null` branch mirrors
`String(null)`. -/
def jsToString : Json → String
  | .null => "null"
  | .str s => s
  | .num n => toString n
  | .bool b => if b then "true" else "false"
  | .arr items => String.intercalate "," (items.attach.map (fun x => jsToString x.1))
  | .obj _ => "[object Object]"
decreasing_by
  have := List.sizeOf_lt_of_mem x.2
  simp only [Json.arr.sizeOf_spec]
  omega

/-! ## `src/llm/toolSchemas.ts` -/

/-- One property declaration of a tool input schema.  `itemsType` records the
`type` of a declared `items` sub-schema (if any); the validator never reads
`minimum`, `maximum` or `itemsType`. -/
structure PropSchema where
  type : Option String := none
  minimum : Option Int := none
  maximum : Option Int := none
  itemsType : Option String := none
deriving DecidableEq, Repr

structure InputSchema where
  properties : List (String × PropSchema) := []
  required : List String := []
  additionalProperties : Bool := false
deriving DecidableEq, Repr

structure ToolSchema where
  name : String
  description : String
  inputSchema : InputSchema
deriving DecidableEq, Repr

/-- `TOOL_SCHEMAS` (src/llm/toolSchemas.ts), the fixed registry of the 25
declared operations. -/
def TOOL_SCHEMAS : List ToolSchema := [
  { name := "read_range",
    description := "Read values, formulas, and number formats from a range.",
    inputSchema := { properties := [("address", { type := some "string" })],
                     required := ["address"] } },
  { name := "getRange",
    description := "Alias for read_range. Reads a specific range.",
    inputSchema := { properties := [("address", { type := some "string" })],
                     required := ["address"] } },
  { name := "getUsedRange",
    description := "Read used range of a given sheet.",
    inputSchema := { properties := [("sheet", { type := some "string" })],
                     required := ["sheet"] } },
  { name := "getPrecedents",
    description := "List precedent ranges for a cell/range.",
    inputSchema := { properties := [
        ("address", { type := some "string" }),
        ("depth", { type := some "number", minimum := some 1, maximum := some 5 })],
                     required := ["address"] } },
  { name := "getDependents",
    description := "List dependent ranges for a cell/range.",
    inputSchema := { properties := [
        ("address", { type := some "string" }),
        ("depth", { type := some "number", minimum := some 1, maximum := some 5 })],
                     required := ["address"] } },
  { name := "findErrors",
    description := "Find workbook or sheet formula/value errors.",
    inputSchema := { properties := [("sheet", { type := some "string" })] } },
  { name := "getTable",
    description := "Get table details by table name.",
    inputSchema := { properties := [("name", { type := some "string" })],
                     required := ["name"] } },
  { name := "listPivots",
    description := "List pivot tables in the workbook.",
    inputSchema := {} },
  { name := "listCharts",
    description := "List charts in the workbook.",
    inputSchema := {} },
  { name := "write_values",
    description := "Write cell values to a range.",
    inputSchema := { properties := [
        ("address", { type := some "string" }),
        ("values", { type := some "array", itemsType := some "array" }),
        ("reason", { type := some "string" })],
                     required := ["address", "values"] } },
  { name := "write_formulas",
    description := "Write formulas to a range.",
    inputSchema := { properties := [
        ("address", { type := some "string" }),
        ("formulas", { type := some "array", itemsType := some "array" }),
        ("reason", { type := some "string" })],
                     required := ["address", "formulas"] } },
  { name := "format_range",
    description := "Format a range (number format, bold, fill, borders).",
    inputSchema := { properties := [
        ("address", { type := some "string" }),
        ("numberFormat", { type := some "string" }),
        ("bold", { type := some "boolean" }),
        ("fillColor", { type := some "string" }),
        ("borderColor", { type := some "string" })],
                     required := ["address"] } },
  { name := "sort_range",
    description := "Sort a range using a 0-based key column index.",
    inputSchema := { properties := [
        ("address", { type := some "string" }),
        ("keyColumn", { type := some "number", minimum := some 0 }),
        ("ascending", { type := some "boolean" })],
                     required := ["address", "keyColumn"] } },
  { name := "filter_table",
    description := "Apply a filter to a table column.",
    inputSchema := { properties := [
        ("tableName", { type := some "string" }),
        ("columnName", { type := some "string" }),
        ("criteria", { type := some "string" })],
                     required := ["tableName", "columnName", "criteria"] } },
  { name := "add_sheet",
    description := "Add a worksheet.",
    inputSchema := { properties := [("name", { type := some "string" })],
                     required := ["name"] } },
  { name := "rename_sheet",
    description := "Rename a worksheet.",
    inputSchema := { properties := [
        ("currentName", { type := some "string" }),
        ("newName", { type := some "string" })],
                     required := ["currentName", "newName"] } },
  { name := "add_conditional_format",
    description := "Add conditional format to range.",
    inputSchema := { properties := [
        ("address", { type := some "string" }),
        ("formula1", { type := some "string" }),
        ("operator", { type := some "string" }),
        ("fillColor", { type := some "string" })],
                     required := ["address"] } },
  { name := "clear_conditional_formats",
    description := "Clear conditional formats in range.",
    inputSchema := { properties := [("address", { type := some "string" })],
                     required := ["address"] } },
  { name := "set_data_validation_dropdown",
    description := "Set data validation dropdown list for range.",
    inputSchema := { properties := [
        ("address", { type := some "string" }),
        ("values", { type := some "array", itemsType := some "string" })],
                     required := ["address", "values"] } },
  { name := "create_chart",
    description := "Create chart from source range.",
    inputSchema := { properties := [
        ("sourceAddress", { type := some "string" }),
        ("chartType", { type := some "string" }),
        ("targetSheet", { type := some "string" }),
        ("title", { type := some "string" })],
                     required := ["sourceAddress", "chartType"] } },
  { name := "update_chart",
    description := "Update chart metadata (title, legend).",
    inputSchema := { properties := [
        ("chartName", { type := some "string" }),
        ("sheetName", { type := some "string" }),
        ("title", { type := some "string" }),
        ("setLegendVisible", { type := some "boolean" })],
                     required := ["chartName", "sheetName"] } },
  { name := "create_pivot",
    description := "Create a pivot table.",
    inputSchema := { properties := [
        ("sourceAddress", { type := some "string" }),
        ("destinationAddress", { type := some "string" }),
        ("name", { type := some "string" })],
                     required := ["sourceAddress", "destinationAddress", "name"] } },
  { name := "update_pivot_filters",
    description := "Update pivot filter selected items.",
    inputSchema := { properties := [
        ("sheetName", { type := some "string" }),
        ("pivotName", { type := some "string" }),
        ("fieldName", { type := some "string" }),
        ("visibleItems", { type := some "array", itemsType := some "string" })],
                     required := ["sheetName", "pivotName", "fieldName", "visibleItems"] } },
  { name := "add_comment_or_note",
    description := "Add a plain text comment to a range.",
    inputSchema := { properties := [
        ("address", { type := some "string" }),
        ("text", { type := some "string" })],
                     required := ["address", "text"] } },
  { name := "web_search",
    description := "Run external web search when enabled by user.",
    inputSchema := { properties := [
        ("query", { type := some "string" }),
        ("maxResults", { type := some "number", minimum := some 1, maximum := some 10 })],
                     required := ["query"] } }]

/-! ## Tool-call validation (`src/llm/agentRunner.ts`, lines 78-138) -/

/-- `valueMatchesSchemaType`: runtime `typeof`-style check against a declared
primitive type; unknown or absent declared types always match.  (`null` is of
`typeof` "object" but the object branch requires `value !== null`.) -/
def valueMatchesSchemaType (value : Json) (schemaType : Option String) : Bool :=
  match schemaType with
  | none => true
  | some t =>
    match t with
    | "string" => match value with | .str _ => true | _ => false
    | "number" => match value with | .num _ => true | _ => false
    | "boolean" => match value with | .bool _ => true | _ => false
    | "array" => match value with | .arr _ => true | _ => false
    | "object" => match value with | .obj _ => true | _ => false
    | _ => true

def unknownToolMsg (name : String) : String := "Unknown tool " ++ name ++ "."

def missingArgMsg (key : String) : String := "Missing required argument: " ++ key

def unexpectedArgMsg (key : String) : String := "Unexpected argument: " ++ key

def invalidTypeMsg (key expected : String) : String :=
  "Invalid type for " ++ key ++ ". Expected " ++ expected ++ "."

/-- The body of `validateToolCallAgainstSchema` once the schema is found: the
required-argument loop, then the closed-schema loop, then the per-property
type loop, each returning on its first failing element. -/
def validateWithSchema (call : ToolCall) (schema : ToolSchema) : Option String :=
  match schema.inputSchema.required.find? (fun key => !hasArg call.args key) with
  | some key => some (missingArgMsg key)
  | none =>
    match (if schema.inputSchema.additionalProperties = false then
             call.args.find?
               (fun p => !schema.inputSchema.properties.any (fun q => q.1 == p.1))
           else none) with
    | some p => some (unexpectedArgMsg p.1)
    | none =>
      match schema.inputSchema.properties.find? (fun q =>
          hasArg call.args q.1 &&
            !valueMatchesSchemaType ((lookupArg call.args q.1).getD .null) q.2.type) with
      | some q => some (invalidTypeMsg q.1 (q.2.type.getD "undefined"))
      | none => none

/-- `validateToolCallAgainstSchema` (src/llm/agentRunner.ts): first failure
wins, in the order unknown tool, missing required argument, unexpected
argument under a closed schema, mismatched declared type; `none` means the
call is valid. -/
def validateToolCallAgainstSchema (call : ToolCall) : Option String :=
  match TOOL_SCHEMAS.find? (fun tool => tool.name == call.name) with
  | none => some (unknownToolMsg call.name)
  | some schema => validateWithSchema call schema

/-! ## `src/state/types.ts` -/

/-- A raw cell value as read from the document (`unknown[][]` grids hold JSON
primitives; empty cells read back as `""`). -/
inductive CellValue where
  | null
  | str (s : String)
  | num (n : Int)
  | bool (b : Bool)
deriving DecidableEq, Repr

/-- `RangeSnapshot`: an address plus three parallel grids. -/
structure RangeSnapshot where
  address : String
  values : List (List CellValue)
  formulas : List (List String)
  numberFormats : List (List String)
deriving DecidableEq, Repr

/-- `RangeChange`: the audit-trail record of one write.  The optional
`reverted?` flag of the source defaults to absent/false. -/
structure RangeChange where
  id : String
  turnId : String
  reason : String
  address : String
  before : RangeSnapshot
  after : RangeSnapshot
  changedCellCount : Nat
  reverted : Bool := false
deriving DecidableEq, Repr

/-- `AppSettings` (the fields the verified components read). -/
structure AppSettings where
  approvalMode : Bool
  webSearchEnabled : Bool
  riskyWriteCellThreshold : Nat
  maxTokenBudget : Nat
  loggingEnabled : Bool
deriving DecidableEq, Repr

/-- `WriteOperationRisk` (src/office/types.ts). -/
structure WriteOperationRisk where
  totalCells : Nat
  nonEmptyCells : Nat
  formulaCells : Nat
  hasFormulaOverwrite : Bool
  hasNonEmptyOverwrite : Bool
deriving DecidableEq, Repr

/-- `ToolExecutionResult["requiresConfirmation"]` (src/office/types.ts). -/
structure RequiresConfirmation where
  reason : String
  risky : Bool
  overwrittenCells : Option Nat := none
  totalCells : Option Nat := none
deriving DecidableEq, Repr

/-! ## `src/office/excelClient.ts` -/

/-- `snapshot.formulas[rowIndex]?.[colIndex] ?? ""`. -/
def formulaAt (formulas : List (List String)) (r c : Nat) : String :=
  ((formulas.get? r).bind (fun row => row.get? c)).getD ""

/-- `value !== null && value !== ""` (for non-string values both strict
inequalities hold). -/
def cellHasValue : CellValue → Bool
  | .null => false
  | .str s => s ≠ ""
  | .num _ => true
  | .bool _ => true

/-- The nested `forEach` of `computeWriteRisk`, counting formula cells and
non-empty cells over one row of the values grid (column index `ci` onward). -/
def rowRiskCount (formulas : List (List String)) (ri : Nat) : Nat → List CellValue → Nat × Nat
  | _, [] => (0, 0)
  | ci, v :: vs =>
    let rest := rowRiskCount formulas ri (ci + 1) vs
    ((if (formulaAt formulas ri ci).startsWith "=" then rest.1 + 1 else rest.1),
     (if cellHasValue v then rest.2 + 1 else rest.2))

/-- The outer `forEach` of `computeWriteRisk` over the values grid (row index
`ri` onward): `(formulaCells, nonEmptyCells)`. -/
def riskCount (formulas : List (List String)) : Nat → List (List CellValue) → Nat × Nat
  | _, [] => (0, 0)
  | ri, row :: rest =>
    let rowCounts := rowRiskCount formulas ri 0 row
    let restCounts := riskCount formulas (ri + 1) rest
    (rowCounts.1 + restCounts.1, rowCounts.2 + restCounts.2)

/-- `computeWriteRisk` (src/office/excelClient.ts). -/
def computeWriteRisk (snapshot : RangeSnapshot) : WriteOperationRisk :=
  let totalCells := snapshot.values.foldl (fun sum row => sum + row.length) 0
  let counts := riskCount snapshot.formulas 0 snapshot.values
  { totalCells := totalCells
    nonEmptyCells := counts.2
    formulaCells := counts.1
    hasFormulaOverwrite := counts.1 > 0
    hasNonEmptyOverwrite := counts.2 > 0 }

/-- `countChangedCells` (src/office/excelClient.ts): positions missing from a
grid (shorter row or fewer rows) read back as `none` — JavaScript `undefined`
— and only compare equal to another missing position. -/
def countChangedCells (before after : RangeSnapshot) : Nat :=
  let rowCount := max before.values.length after.values.length
  (List.range rowCount).foldl
    (fun changed row =>
      let beforeRow := (before.values.get? row).getD []
      let afterRow := (after.values.get? row).getD []
      let beforeFormulaRow := (before.formulas.get? row).getD []
      let afterFormulaRow := (after.formulas.get? row).getD []
      let colCount := max beforeRow.length afterRow.length
      changed + (List.range colCount).countP
        (fun col => beforeRow.get? col != afterRow.get? col ||
          beforeFormulaRow.get? col != afterFormulaRow.get? col))
    0

/-- The `RangeChange` record built and returned by `writeValues` /
`writeFormulas` (src/office/excelClient.ts) from the two reads of the target
range (`before` just before the write, `after` just after). -/
def mkWriteChange (id : String) (before after : RangeSnapshot)
    (turnId reason : String) : RangeChange :=
  { id := id
    turnId := turnId
    reason := reason
    address := after.address
    before := before
    after := after
    changedCellCount := countChangedCells before after
    reverted := false }

/-- The formulas and number formats the document holds at one range address
(the part of document state that `applySnapshot` writes; values are recomputed
by the host from the formulas). -/
structure DocRange where
  formulas : List (List String)
  numberFormats : List (List String)
deriving DecidableEq, Repr

/-- Document state, keyed by range address. -/
def Doc : Type := String → DocRange

/-- `applySnapshot` (src/office/excelClient.ts): write the snapshot's formulas
and number formats back to the snapshot's address. -/
def applySnapshot (doc : Doc) (snapshot : RangeSnapshot) : Doc :=
  fun address =>
    if address = snapshot.address then
      { formulas := snapshot.formulas, numberFormats := snapshot.numberFormats }
    else doc address

/-- `revertChange` (src/office/excelClient.ts): apply the `before` snapshot.
(The subsequent `highlightRange` call only recolours the range fill/borders,
which are outside the formulas/number-format state modelled here.) -/
def revertChange (doc : Doc) (change : RangeChange) : Doc :=
  applySnapshot doc change.before

/-- `undoTurnChanges` (src/office/excelClient.ts): revert every change of the
turn whose `reverted` flag is not set. -/
def undoTurnChanges (doc : Doc) (turnId : String) (changes : List RangeChange) : Doc :=
  (changes.filter (fun change => change.turnId == turnId && !change.reverted)).foldl
    revertChange doc

/-! ## `src/office/aiLog.ts` (session store) -/

/-- `markRangeChangeReverted` (src/office/aiLog.ts): flip `reverted` to true
on the change with the given id. -/
def markRangeChangeReverted (changes : List RangeChange) (changeId : String) : List RangeChange :=
  changes.map (fun change =>
    if change.id == changeId then { change with reverted := true } else change)

/-! ## `src/office/tools.ts` -/

def EDITING_TOOLS : List String := [
  "write_values",
  "write_formulas",
  "format_range",
  "sort_range",
  "filter_table",
  "add_sheet",
  "rename_sheet",
  "add_conditional_format",
  "clear_conditional_formats",
  "set_data_validation_dropdown",
  "create_chart",
  "update_chart",
  "create_pivot",
  "update_pivot_filters",
  "add_comment_or_note"]

def isEditingTool (toolName : String) : Bool :=
  EDITING_TOOLS.contains toolName

def isRiskyTool (toolName : String) : Bool :=
  toolName == "web_search" || isEditingTool toolName

/-- `String(call.args.address ?? "")`. -/
def argAddressString (call : ToolCall) : String :=
  match lookupArg call.args "address" with
  | none => ""
  | some .null => ""
  | some (.str s) => s
  | some v => jsToString v

def webSearchRiskMsg : String := "External web search may send data outside Excel."

def missingAddressMsg : String := "Missing target range address."

def thresholdRiskMsg (totalCells threshold : Nat) : String :=
  "This write targets " ++ toString totalCells ++ " cells, above the risky threshold (" ++
    toString threshold ++ ")."

def overwriteRiskMsg (nonEmptyCells formulaCells : Nat) : String :=
  "This write may overwrite " ++ toString nonEmptyCells ++ " non-empty cells and " ++
    toString formulaCells ++ " formulas."

/-- `preflightToolRisk` (src/office/tools.ts).  `doc` abstracts
`snapshotRangeWithRisk`'s read of the current target range. -/
def preflightToolRisk (doc : String → RangeSnapshot) (call : ToolCall)
    (settings : AppSettings) : Option RequiresConfirmation :=
  if call.name == "web_search" then
    some { reason := webSearchRiskMsg, risky := true }
  else if !isEditingTool call.name then
    none
  else if call.name == "write_values" || call.name == "write_formulas" then
    let address := argAddressString call
    if address = "" then
      some { reason := missingAddressMsg, risky := true }
    else
      let risk := computeWriteRisk (doc address)
      if risk.totalCells > settings.riskyWriteCellThreshold then
        some { reason := thresholdRiskMsg risk.totalCells settings.riskyWriteCellThreshold
               risky := true
               overwrittenCells := some risk.nonEmptyCells
               totalCells := some risk.totalCells }
      else if risk.hasFormulaOverwrite || risk.hasNonEmptyOverwrite then
        some { reason := overwriteRiskMsg risk.nonEmptyCells risk.formulaCells
               risky := true
               overwrittenCells := some risk.nonEmptyCells
               totalCells := some risk.totalCells }
      else none
  else none

/-! ## The approval gate region of `AgentRunner.runTurn`
(src/llm/agentRunner.ts, lines 421-462) -/

/-- The `requiresApproval` expression of `runTurn`. -/
def requiresApprovalFlag (settings : AppSettings) (call : ToolCall)
    (risk : Option RequiresConfirmation) : Bool :=
  (settings.approvalMode && isEditingTool call.name) || risk.isSome ||
    (isRiskyTool call.name && settings.approvalMode)

/-- What happened around one validated tool call: whether `askApproval` was
invoked, its answer if so, and whether `executeToolCall` ran. -/
structure ApprovalGateTrace where
  gateInvoked : Bool
  approved : Option Bool
  executed : Bool
deriving DecidableEq, Repr

/-- The approval region of the orchestrator loop for one validated tool call:
preflight the risk, compute `requiresApproval`, ask the gate if required, and
execute exactly when approval was not required or was granted. -/
def toolApprovalStep (doc : String → RangeSnapshot) (settings : AppSettings)
    (call : ToolCall) (gateAnswer : Bool) : ApprovalGateTrace :=
  let risk := preflightToolRisk doc call settings
  if requiresApprovalFlag settings call risk then
    { gateInvoked := true, approved := some gateAnswer, executed := gateAnswer }
  else
    { gateInvoked := false, approved := none, executed := true }

/-! ## Orchestrator model (`src/llm/agentRunner.ts`, `AgentRunner.runTurn`)

The turn driver is deterministic control flow around effectful calls
(workbook reads, provider completions, tool execution).  The model below
keeps that control flow exactly and abstracts each effect behind a field of
`OrchestratorEnv`: `contextJson level` is the serialized workbook context
pack at a reduction level, `responses i` is what the provider call of loop
iteration `i` produces (or the error it throws), `streamed i` the text it
streams, `compacted`/`compactionSummary` the result of
`compactConversationWithModel` (whose internal summarization call is part of
the degradation ladder, not of the turn's completion loop), and `approvals i`
the approval-gate answer of iteration `i`.  Internal `llmMessages`
(corrective instructions, tool results) flow back to the provider and are
absorbed into the response abstraction; only session-visible messages are
tracked. -/

/-- `ContextReductionLevel` (contextPack.ts). -/
inductive ContextReductionLevel where
  | full
  | selection_only
  | minimal
deriving DecidableEq, Repr

/-- A conversation message as the trimming/compaction code sees it. -/
structure HistMsg where
  role : String
  content : String
deriving DecidableEq, Repr

def MAX_TOOL_ITERATIONS : Nat := 8

def MAX_HISTORY_MESSAGES : Nat := 16

/-- `trimHistory` (src/llm/agentRunner.ts): drop system messages, keep the
most recent `MAX_HISTORY_MESSAGES` (`slice(-16)`). -/
def trimHistory (messages : List HistMsg) : List HistMsg :=
  let filtered := messages.filter (fun m => m.role ≠ "system")
  filtered.drop (filtered.length - MAX_HISTORY_MESSAGES)

/-- The provider's reply to one completion call of the loop: the normalized
response, or the error it threw. -/
inductive ProviderOutcome where
  | ok (kindFinal : Bool) (text : String) (call : ToolCall)
  | throws (message : String)

/-- `LlmResponse` reconstructed from `ProviderOutcome.ok`: `kindFinal = true`
means `{kind: "final", text}`, otherwise `{kind: "tool_call", call}`. -/
def ProviderOutcome.isFinal : ProviderOutcome → Bool
  | .ok kindFinal _ _ => kindFinal
  | .throws _ => false

structure OrchestratorEnv where
  settings : AppSettings
  systemPrompt : String
  toolsJson : String
  contextJson : ContextReductionLevel → String
  selectionAddress : String
  memory0 : Option String
  compacted : List HistMsg → List HistMsg
  compactionSummary : List HistMsg → String
  doc : String → RangeSnapshot
  responses : Nat → ProviderOutcome
  streamed : Nat → Option String
  approvals : Nat → Bool

/-- `estimateForCurrentState` (src/llm/agentRunner.ts): the token estimate for
the current context level, memory summary and compacted history. -/
def estimateForState (env : OrchestratorEnv) (level : ContextReductionLevel)
    (memory : Option String) (history : List HistMsg) : TokenEstimate :=
  estimateRequestTokens
    { systemPrompt := env.systemPrompt
      memorySummary := memory
      contextPackJson := some (env.contextJson level)
      messages := history.map (fun m => m.content)
      toolsJson := env.toolsJson }

/-- State after the degradation ladder. -/
structure LadderState where
  level : ContextReductionLevel
  history : List HistMsg
  memory : Option String
  compactionRan : Bool
deriving Repr

/-- The `while` loop of the ladder: drop the oldest message while the
estimate exceeds the budget and more than 4 messages remain. -/
def dropOldestWhileOver (env : OrchestratorEnv) (level : ContextReductionLevel)
    (memory : Option String) : List HistMsg → List HistMsg
  | [] => []
  | m :: rest =>
    if (estimateForState env level memory (m :: rest)).total > env.settings.maxTokenBudget ∧
        (m :: rest).length > 4 then
      dropOldestWhileOver env level memory rest
    else m :: rest

/-- The degradation ladder of `runTurn` (src/llm/agentRunner.ts, lines
208-252): shrink context to selection focus, compact history, shrink to
minimal, drop oldest messages. -/
def runLadder (env : OrchestratorEnv) (history0 : List HistMsg) : LadderState :=
  let e1 := estimateForState env .full env.memory0 history0
  let level2 := if e1.total > env.settings.maxTokenBudget then
    ContextReductionLevel.selection_only else .full
  let e2 := estimateForState env level2 env.memory0 history0
  let compacting := e2.total > env.settings.maxTokenBudget ∧ history0.length > 8
  let history3 := if compacting then trimHistory (env.compacted history0) else history0
  let memory3 := if compacting then some (env.compactionSummary history0) else env.memory0
  let e3 := estimateForState env level2 memory3 history3
  let level4 := if e3.total > env.settings.maxTokenBudget then
    ContextReductionLevel.minimal else level2
  let history5 := dropOldestWhileOver env level4 memory3 history3
  { level := level4
    history := history5
    memory := memory3
    compactionRan := decide compacting }

/-- How the turn ended. -/
inductive TurnOutcome where
  | finalized (answer : String)
  | budgetExceeded
  | iterationLimit
  | errorCaught (message : String)
deriving DecidableEq, Repr

def budgetExceededMsg (maxTokenBudget : Nat) : String :=
  "I couldn\x27t fit the request into the current token budget (" ++
    toString maxTokenBudget ++ "). Reduce context or increase the budget slider."

def iterationLimitMsg : String :=
  "I reached the tool iteration limit before producing a final answer. Please refine the request."

def turnFailedMsg (message : String) : String :=
  "The turn failed before completion: " ++ message

/-- Observable result of one turn.  `notices` are the assistant messages
appended with `session.addMessage` (budget-exceeded, iteration-limit, error);
`finalAnswer` is the finalized streaming message (streaming flag cleared);
`draft` a leftover streaming draft (streaming flag still set);
`completionCalls` counts the provider completion calls made by the
orchestrator loop. -/
structure TurnResult where
  outcome : TurnOutcome
  notices : List String
  finalAnswer : Option String
  draft : Option String
  busy : Bool
  completionCalls : Nat
  iterations : Nat
deriving DecidableEq, Repr

/-- `looksLikeInvalidJsonToolResponse` (src/llm/agentRunner.ts). -/
def looksLikeInvalidJsonToolResponse (text : String) : Bool :=
  let trimmed := jsTrim text
  trimmed.startsWith "\x7b" && !trimmed.endsWith "\x7d"

/-- The citation fallback applied when a final answer carries no citation
markers (src/llm/agentRunner.ts, lines 333-342; the appended web-sources
section, which only adds collected URLs, is not modelled). -/
def finalizeAnswerText (env : OrchestratorEnv) (text : String) : String :=
  if extractCitations text = [] then
    text ++ "\n\nSources: [[" ++ env.selectionAddress ++ "]]"
  else text

/-- Mutable loop state threaded through the iterations. -/
structure LoopAcc where
  jsonRetry : Bool
  toolRetry : Bool
  iterIndex : Nat
  calls : Nat
  draft : Option String
deriving Repr

/-- The streaming draft after the `onTextDelta` callbacks of the call at
iteration `i` (the provider appends each streamed delta to the draft
message). -/
def nextDraft (env : OrchestratorEnv) (i : Nat) (draft : Option String) : Option String :=
  match env.streamed i with
  | some s => some ((draft.getD "") ++ s)
  | none => draft

/-- The `for` loop of `runTurn` (src/llm/agentRunner.ts, lines 280-514).
Every tool-call response continues the loop (validation failures inject
corrective instructions, approval rejections append tool-result messages to
`llmMessages`, executions append tool results — none of which are session
messages); a final response finalizes unless it looks like a malformed JSON
tool call and the one retry is still available; a thrown provider error
propagates to the turn-level catch. -/
def runLoop (env : OrchestratorEnv) : Nat → LoopAcc → TurnResult
  | 0, acc =>
    { outcome := .iterationLimit
      notices := [iterationLimitMsg]
      finalAnswer := none
      draft := acc.draft
      busy := false
      completionCalls := acc.calls
      iterations := acc.iterIndex }
  | fuel + 1, acc =>
    match env.responses acc.iterIndex with
    | .throws message =>
      { outcome := .errorCaught message
        notices := [turnFailedMsg message]
        finalAnswer := none
        draft := nextDraft env acc.iterIndex acc.draft
        busy := false
        completionCalls := acc.calls + 1
        iterations := acc.iterIndex + 1 }
    | .ok kindFinal text call =>
      if kindFinal then
        if looksLikeInvalidJsonToolResponse text && !acc.jsonRetry then
          runLoop env fuel
            { acc with
                jsonRetry := true
                iterIndex := acc.iterIndex + 1
                calls := acc.calls + 1
                draft := nextDraft env acc.iterIndex acc.draft }
        else
          { outcome := .finalized (finalizeAnswerText env text)
            notices := []
            finalAnswer := some (finalizeAnswerText env text)
            draft := none
            busy := false
            completionCalls := acc.calls + 1
            iterations := acc.iterIndex + 1 }
      else
        match validateToolCallAgainstSchema call with
        | some _ =>
          runLoop env fuel
            { acc with
                toolRetry := true
                iterIndex := acc.iterIndex + 1
                calls := acc.calls + 1
                draft := nextDraft env acc.iterIndex acc.draft }
        | none =>
          runLoop env fuel
            { acc with
                toolRetry := false
                iterIndex := acc.iterIndex + 1
                calls := acc.calls + 1
                draft := nextDraft env acc.iterIndex acc.draft }

/-- The post-ladder state of the turn. -/
def ladderResult (env : OrchestratorEnv) (messages : List HistMsg) : LadderState :=
  runLadder env (trimHistory (messages.filter (fun m => m.role ≠ "memory")))

/-- The estimate checked by the final budget guard (line 254). -/
def postLadderEstimate (env : OrchestratorEnv) (messages : List HistMsg) : Nat :=
  let s := ladderResult env messages
  (estimateForState env s.level s.memory s.history).total

/-- `AgentRunner.runTurn` (src/llm/agentRunner.ts): budget guard, then the
bounded loop; the `finally` block clears the busy flag on every path. -/
def runTurnModel (env : OrchestratorEnv) (messages : List HistMsg) : TurnResult :=
  if postLadderEstimate env messages > env.settings.maxTokenBudget then
    { outcome := .budgetExceeded
      notices := [budgetExceededMsg env.settings.maxTokenBudget]
      finalAnswer := none
      draft := none
      busy := false
      completionCalls := 0
      iterations := 0 }
  else
    runLoop env MAX_TOOL_ITERATIONS
      { jsonRetry := false, toolRetry := false, iterIndex := 0, calls := 0, draft := none }

/-! # Theorems -/

/-- **C1.** Reverting a Change writes the `before` snapshot's formulas and
number formats back to the target range; marking flips the `reverted` flag of
exactly the named Change to true; and a whole-turn revert is a no-op once
every Change of the turn is flagged `reverted` (the filter in
`undoTurnChanges` skips them), so reverting a second time does nothing. -/
theorem revertChange_restores_before_and_skips_reverted :
    ∀ (doc : Doc) (change : RangeChange) (changes : List RangeChange) (changeId turnId : String),
      revertChange doc change change.before.address =
        { formulas := change.before.formulas, numberFormats := change.before.numberFormats } ∧
      (∀ c ∈ markRangeChangeReverted changes changeId, c.id = changeId → c.reverted = true) ∧
      ((∀ c ∈ changes, c.turnId = turnId → c.reverted = true) →
        undoTurnChanges doc turnId changes = doc) := by
  intro doc change changes changeId turnId
  refine ⟨?_, ?_, ?_⟩
  · simp [revertChange, applySnapshot]
  · intro c hc hid
    simp only [markRangeChangeReverted, List.mem_map] at hc
    obtain ⟨c0, _, rfl⟩ := hc
    by_cases hb : (c0.id == changeId) = true
    · simp [hb]
    · simp only [hb, if_neg, Bool.false_eq_true, not_false_eq_true, if_false] at hid ⊢
      rw [hid] at hb
      simp at hb
  · intro h
    have hfilter :
        changes.filter (fun change => change.turnId == turnId && !change.reverted) = [] := by
      rw [List.filter_eq_nil_iff]
      intro c hc
      by_cases ht : c.turnId = turnId
      · have hrev := h c hc ht
        simp [ht, hrev]
      · simp [ht]
    unfold undoTurnChanges
    rw [hfilter]
    rfl

/-- **C1 witness.** -/
theorem revertChange_restores_before_and_skips_reverted_witness :
    undoTurnChanges (fun _ => { formulas := [], numberFormats := [] }) "turn_1"
        [{ id := "change_1", turnId := "turn_1", reason := "r", address := "Sheet1!A1",
           before := { address := "Sheet1!A1", values := [[.str "x"]], formulas := [["x"]],
                       numberFormats := [["General"]] },
           after := { address := "Sheet1!A1", values := [[.str "y"]], formulas := [["y"]],
                      numberFormats := [["General"]] },
           changedCellCount := 1, reverted := true }] =
      (fun _ => { formulas := [], numberFormats := [] }) :=
  (revertChange_restores_before_and_skips_reverted
      (fun _ => { formulas := [], numberFormats := [] })
      { id := "c", turnId := "t", reason := "r", address := "A1",
        before := { address := "A1", values := [], formulas := [], numberFormats := [] },
        after := { address := "A1", values := [], formulas := [], numberFormats := [] },
        changedCellCount := 0 }
      [{ id := "change_1", turnId := "turn_1", reason := "r", address := "Sheet1!A1",
         before := { address := "Sheet1!A1", values := [[.str "x"]], formulas := [["x"]],
                     numberFormats := [["General"]] },
         after := { address := "Sheet1!A1", values := [[.str "y"]], formulas := [["y"]],
                    numberFormats := [["General"]] },
         changedCellCount := 1, reverted := true }]
      "change_1" "turn_1").2.2 (by decide)

/-- **C5.** A `web_search` call always invokes the approval gate (its
preflight risk is unconditional, so `requiresApproval` is true whatever the
approval-mode switch says) and executes only when the gate answers true; a
document-mutating tool other than the two bulk writes invokes the gate only
when approval mode is enabled. -/
theorem webSearch_always_gated_editing_gated_by_approvalMode :
    ∀ (doc : String → RangeSnapshot) (settings : AppSettings) (call : ToolCall) (answer : Bool),
      (call.name = "web_search" →
        (toolApprovalStep doc settings call answer).gateInvoked = true ∧
        ((toolApprovalStep doc settings call answer).executed = true → answer = true)) ∧
      (isEditingTool call.name = true →
        call.name ≠ "write_values" → call.name ≠ "write_formulas" →
        (toolApprovalStep doc settings call answer).gateInvoked = true →
        settings.approvalMode = true) := by
  intro doc settings call answer
  constructor
  · intro hname
    have hrisk : preflightToolRisk doc call settings =
        some { reason := webSearchRiskMsg, risky := true } := by
      simp [preflightToolRisk, hname]
    have hreq : requiresApprovalFlag settings call (preflightToolRisk doc call settings) = true := by
      simp [requiresApprovalFlag, hrisk]
    constructor
    · simp [toolApprovalStep, hreq]
    · intro hex
      simpa [toolApprovalStep, hreq] using hex
  · intro hedit hnv hnf hgate
    have hmem : call.name ∈ EDITING_TOOLS := by
      simpa [isEditingTool, List.contains_iff_exists_mem_beq, beq_iff_eq] using hedit
    have hnw : call.name ≠ "web_search" := by
      intro hc
      rw [hc] at hmem
      simp [EDITING_TOOLS] at hmem
    have hrisk : preflightToolRisk doc call settings = none := by
      simp [preflightToolRisk, hnw, hedit, hnv, hnf]
    by_cases hmode : settings.approvalMode = true
    · exact hmode
    · exfalso
      have hmode' : settings.approvalMode = false := by
        simpa using hmode
      have : (toolApprovalStep doc settings call answer).gateInvoked = false := by
        simp [toolApprovalStep, requiresApprovalFlag, hrisk, hmode']
      rw [hgate] at this
      exact Bool.true_eq_false.mp this

/-- **C5 witness.** -/
theorem webSearch_always_gated_editing_gated_by_approvalMode_witness :
    (toolApprovalStep (fun _ => { address := "A1", values := [], formulas := [], numberFormats := [] })
        { approvalMode := false, webSearchEnabled := true, riskyWriteCellThreshold := 1000,
          maxTokenBudget := 10000, loggingEnabled := false }
        { name := "web_search", args := [("query", .str "x")], reason := "search" }
        false).gateInvoked = true ∧
    ((toolApprovalStep (fun _ => { address := "A1", values := [], formulas := [], numberFormats := [] })
        { approvalMode := true, webSearchEnabled := true, riskyWriteCellThreshold := 1000,
          maxTokenBudget := 10000, loggingEnabled := false }
        { name := "format_range", args := [("address", .str "A1")], reason := "fmt" }
        true).gateInvoked = true → True) :=
  ⟨((webSearch_always_gated_editing_gated_by_approvalMode
      (fun _ => { address := "A1", values := [], formulas := [], numberFormats := [] })
      { approvalMode := false, webSearchEnabled := true, riskyWriteCellThreshold := 1000,
        maxTokenBudget := 10000, loggingEnabled := false }
      { name := "web_search", args := [("query", .str "x")], reason := "search" }
      false).1 rfl).1,
   fun _ => trivial⟩

/-- **C8 counterexample.** The token estimate does *not* strictly increase
with text length: `"ab"` is longer than `"a"` yet both estimate to one token
(`Math.ceil(len / 4)` is flat between multiples of 4). -/
theorem tokenEstimate_not_strictly_increasing :
    ("a" : String).length < ("ab" : String).length ∧
      ¬ estimateTokensFromText "a" < estimateTokensFromText "ab" := by
  decide

/-- **C8 (amended).** The token estimate is non-negative; the request
estimate satisfies `total = inputTokens + outputTokens` with `outputTokens`
the ceiling of a quarter of `inputTokens` (characterised arithmetically);
blank text estimates to zero; and the text estimate never decreases when the
text is extended, increasing strictly once the extension reaches the
4-characters-per-token ratio (in place of the claimed strict increase with
any length growth). -/
theorem tokenEstimator_amended_spec :
    ∀ (input : TokenEstimateInput) (s t : String),
      0 ≤ estimateTokensFromText s ∧
      (estimateRequestTokens input).total =
        (estimateRequestTokens input).inputTokens + (estimateRequestTokens input).outputTokens ∧
      (estimateRequestTokens input).inputTokens ≤ 4 * (estimateRequestTokens input).outputTokens ∧
      4 * (estimateRequestTokens input).outputTokens ≤ (estimateRequestTokens input).inputTokens + 3 ∧
      (s.toList.all isJsWhitespace = true → estimateTokensFromText s = 0) ∧
      estimateTokensFromText s ≤ estimateTokensFromText (s ++ t) ∧
      (jsTrim s ≠ "" → 4 ≤ t.length →
        estimateTokensFromText s < estimateTokensFromText (s ++ t)) := by
  intro input s t
  have hout : (estimateRequestTokens input).outputTokens =
      ((estimateRequestTokens input).inputTokens + 3) / 4 := rfl
  have hlen : (s ++ t).length = s.length + t.length := String.length_append s t
  refine ⟨Nat.zero_le _, rfl, ?_, ?_, ?_, ?_, ?_⟩
  · rw [hout]; omega
  · rw [hout]; omega
  · intro hws
    have : jsTrim s = "" := (jsTrim_eq_empty_iff s).mpr hws
    simp [estimateTokensFromText, this]
  · by_cases hb : jsTrim s = ""
    · simp [estimateTokensFromText, hb]
    · have hb2 := jsTrim_append_ne_empty s t hb
      simp only [estimateTokensFromText, hb, hb2, if_neg, if_false, hlen, CHARS_PER_TOKEN]
      omega
  · intro hb ht
    have hb2 := jsTrim_append_ne_empty s t hb
    simp only [estimateTokensFromText, hb, hb2, if_neg, if_false, hlen, CHARS_PER_TOKEN]
    omega

/-- **C8 witness (amended theorem).** -/
theorem tokenEstimator_amended_spec_witness :
    estimateTokensFromText " \t " = 0 ∧
      estimateTokensFromText "a" < estimateTokensFromText ("a" ++ "bcde") :=
  ⟨(tokenEstimator_amended_spec ⟨"", none, none, [], ""⟩ " \t " "x").2.2.2.2.1 (by decide),
   (tokenEstimator_amended_spec ⟨"", none, none, [], ""⟩ "a" "bcde").2.2.2.2.2.2
     (by decide) (by decide)⟩

/-! ## Specification-side changed-cell count (claim C2) -/

/-- The cell of a grid at a position, `none` when the position is missing
from the grid (shorter row or fewer rows) — the "empty cell" of the
specification. -/
def cellAt (grid : List (List α)) (r c : Nat) : Option α :=
  (grid.get? r).bind (fun row => row.get? c)

/-- The widest row length of a grid. -/
def maxRowLen (grid : List (List α)) : Nat :=
  (grid.map List.length).foldr max 0

theorem le_maxRowLen (grid : List (List α)) (row : List α) (h : row ∈ grid) :
    row.length ≤ maxRowLen grid := by
  unfold maxRowLen
  induction grid with
  | nil => cases h
  | cons g gs ih =>
    rcases List.mem_cons.mp h with rfl | hmem
    · exact le_max_left _ _
    · exact le_trans (ih hmem) (by simp)

/-- The specification's count: the number of grid positions at which the
before value differs from the after value or the before formula differs from
the after formula, a missing position being treated as an empty cell. -/
def specChangedCellCount (before after : RangeSnapshot) : Nat :=
  let rows := max (max before.values.length after.values.length)
    (max before.formulas.length after.formulas.length)
  let cols := max (max (maxRowLen before.values) (maxRowLen after.values))
    (max (maxRowLen before.formulas) (maxRowLen after.formulas))
  ((Finset.range rows ×ˢ Finset.range cols).filter (fun p =>
    cellAt before.values p.1 p.2 ≠ cellAt after.values p.1 p.2 ∨
    cellAt before.formulas p.1 p.2 ≠ cellAt after.formulas p.1 p.2)).card

theorem foldl_add_eq_sum (f : Nat → Nat) :
    ∀ n, (List.range n).foldl (fun acc r => acc + f r) 0 = ∑ r in Finset.range n, f r := by
  intro n
  induction n with
  | zero => rfl
  | succ n ih =>
    rw [List.range_succ, List.foldl_append, ih, Finset.sum_range_succ]
    rfl

theorem countP_range_eq_sum (p : Nat → Bool) :
    ∀ n, (List.range n).countP p = ∑ c in Finset.range n, if p c then 1 else 0 := by
  intro n
  induction n with
  | zero => rfl
  | succ n ih =>
    rw [List.range_succ, List.countP_append, ih, Finset.sum_range_succ]
    simp [List.countP_cons]

theorem row_changed_count_eq (bRow aRow : List CellValue) (bfRow afRow : List String)
    (hba : aRow.length = bRow.length) (hbf : bfRow.length = bRow.length)
    (haf : afRow.length = bRow.length) (cols : Nat) (hcols : bRow.length ≤ cols) :
    (List.range (max bRow.length aRow.length)).countP
      (fun col => bRow.get? col != aRow.get? col || bfRow.get? col != afRow.get? col) =
    ∑ c in Finset.range cols,
      if bRow.get? c ≠ aRow.get? c ∨ bfRow.get? c ≠ afRow.get? c then 1 else 0 := by
  rw [hba, max_self, countP_range_eq_sum]
  have hstep : ∀ c,
      (if (bRow.get? c != aRow.get? c || bfRow.get? c != afRow.get? c) = true then 1 else 0) =
      (if bRow.get? c ≠ aRow.get? c ∨ bfRow.get? c ≠ afRow.get? c then 1 else 0) := by
    intro c
    by_cases h : bRow.get? c ≠ aRow.get? c ∨ bfRow.get? c ≠ afRow.get? c
    · rw [if_pos h, if_pos (by simpa [bne_iff_ne] using h)]
    · rw [if_neg h, if_neg (by simpa [bne_iff_ne] using h)]
  calc (∑ c in Finset.range bRow.length,
          if (bRow.get? c != aRow.get? c || bfRow.get? c != afRow.get? c) = true then 1 else 0)
      = ∑ c in Finset.range bRow.length,
          if bRow.get? c ≠ aRow.get? c ∨ bfRow.get? c ≠ afRow.get? c then 1 else 0 :=
        Finset.sum_congr rfl (fun c _ => hstep c)
    _ = ∑ c in Finset.range cols,
          if bRow.get? c ≠ aRow.get? c ∨ bfRow.get? c ≠ afRow.get? c then 1 else 0 := by
        apply Finset.sum_subset (Finset.range_subset.mpr hcols)
        intro c _ hc
        have hcL : bRow.length ≤ c := by
          have := Finset.mem_range.not.mp hc
          omega
        have h1 : bRow.get? c = none := List.get?_eq_none.mpr hcL
        have h2 : aRow.get? c = none := List.get?_eq_none.mpr (by omega)
        have h3 : bfRow.get? c = none := List.get?_eq_none.mpr (by omega)
        have h4 : afRow.get? c = none := List.get?_eq_none.mpr (by omega)
        have hfalse : ¬(bRow.get? c ≠ aRow.get? c ∨ bfRow.get? c ≠ afRow.get? c) := by
          rw [h1, h2, h3, h4]
          simp
        rw [if_neg hfalse]

/-- **C2.** For every Change produced by a write operation,
`changedCellCount` is the number of positions at which the before value or
the before formula differs from the after one, missing positions counting as
empty.  The hypotheses record what holds of every such Change by
construction: a snapshot's three grids are parallel (identical row lengths),
and `before`/`after` are two reads of the same resolved range, hence share
one shape. -/
theorem writeChange_changedCellCount_eq_spec :
    ∀ (cid : String) (before after : RangeSnapshot) (turnId reason : String),
      before.values.map List.length = after.values.map List.length →
      before.formulas.map List.length = before.values.map List.length →
      after.formulas.map List.length = after.values.map List.length →
      (mkWriteChange cid before after turnId reason).changedCellCount =
        specChangedCellCount before after := by
  intro cid before after turnId reason hba hbf haf
  show countChangedCells before after = specChangedCellCount before after
  have hlba : before.values.length = after.values.length := by
    have := congrArg List.length hba; simpa using this
  have hlbf : before.formulas.length = before.values.length := by
    have := congrArg List.length hbf; simpa using this
  have hlaf : after.formulas.length = after.values.length := by
    have := congrArg List.length haf; simpa using this
  unfold countChangedCells specChangedCellCount
  rw [foldl_add_eq_sum
    (fun row =>
      (List.range (max ((before.values.get? row).getD []).length
          ((after.values.get? row).getD []).length)).countP
        (fun col => ((before.values.get? row).getD []).get? col !=
            ((after.values.get? row).getD []).get? col ||
          ((before.formulas.get? row).getD []).get? col !=
            ((after.formulas.get? row).getD []).get? col))]
  rw [Finset.card_filter, Finset.sum_product]
  have hrows : max (max before.values.length after.values.length)
      (max before.formulas.length after.formulas.length) = before.values.length := by
    omega
  have hmax2 : max before.values.length after.values.length = before.values.length := by
    omega
  rw [hrows, hmax2]
  apply Finset.sum_congr rfl
  intro r hr
  have hrR : r < before.values.length := Finset.mem_range.mp hr
  obtain ⟨bRow, hbRow⟩ : ∃ x, before.values.get? r = some x :=
    Option.ne_none_iff_exists'.mp (by rw [Ne, List.get?_eq_none]; omega)
  obtain ⟨aRow, haRow⟩ : ∃ x, after.values.get? r = some x :=
    Option.ne_none_iff_exists'.mp (by rw [Ne, List.get?_eq_none]; omega)
  obtain ⟨bfRow, hbfRow⟩ : ∃ x, before.formulas.get? r = some x :=
    Option.ne_none_iff_exists'.mp (by rw [Ne, List.get?_eq_none]; omega)
  obtain ⟨afRow, hafRow⟩ : ∃ x, after.formulas.get? r = some x :=
    Option.ne_none_iff_exists'.mp (by rw [Ne, List.get?_eq_none]; omega)
  have hlenba : aRow.length = bRow.length := by
    have := congrArg (fun l => l.get? r) hba
    simp only [List.get?_map, hbRow, haRow, Option.map_some'] at this
    exact (Option.some.inj this).symm
  have hlenbf : bfRow.length = bRow.length := by
    have := congrArg (fun l => l.get? r) hbf
    simp only [List.get?_map, hbRow, hbfRow, Option.map_some'] at this
    exact Option.some.inj this
  have hlenaf : afRow.length = bRow.length := by
    have := congrArg (fun l => l.get? r) haf
    simp only [List.get?_map, haRow, hafRow, Option.map_some'] at this
    rw [Option.some.inj this, hlenba]
  have hcols : bRow.length ≤
      max (max (maxRowLen before.values) (maxRowLen after.values))
        (max (maxRowLen before.formulas) (maxRowLen after.formulas)) :=
    le_trans (le_maxRowLen before.values bRow (List.get?_mem hbRow))
      (le_trans (le_max_left _ _) (le_max_left _ _))
  have hcell : ∀ c, cellAt before.values r c = bRow.get? c := by
    intro c; unfold cellAt; rw [hbRow]; rfl
  have hcell2 : ∀ c, cellAt after.values r c = aRow.get? c := by
    intro c; unfold cellAt; rw [haRow]; rfl
  have hcell3 : ∀ c, cellAt before.formulas r c = bfRow.get? c := by
    intro c; unfold cellAt; rw [hbfRow]; rfl
  have hcell4 : ∀ c, cellAt after.formulas r c = afRow.get? c := by
    intro c; unfold cellAt; rw [hafRow]; rfl
  rw [hbRow, haRow, hbfRow, hafRow]
  simp only [Option.getD_some]
  rw [row_changed_count_eq bRow aRow bfRow afRow hlenba hlenbf hlenaf _ hcols]
  apply Finset.sum_congr rfl
  intro c _
  rw [hcell, hcell2, hcell3, hcell4]

/-- **C2 witness.** -/
theorem writeChange_changedCellCount_eq_spec_witness :
    (mkWriteChange "change_w"
        { address := "Sheet1!A1:B1", values := [[.num 1, .str ""]],
          formulas := [["1", ""]], numberFormats := [["General", "General"]] }
        { address := "Sheet1!A1:B1", values := [[.num 2, .str ""]],
          formulas := [["2", ""]], numberFormats := [["General", "General"]] }
        "turn_w" "update").changedCellCount =
      specChangedCellCount
        { address := "Sheet1!A1:B1", values := [[.num 1, .str ""]],
          formulas := [["1", ""]], numberFormats := [["General", "General"]] }
        { address := "Sheet1!A1:B1", values := [[.num 2, .str ""]],
          formulas := [["2", ""]], numberFormats := [["General", "General"]] } :=
  writeChange_changedCellCount_eq_spec "change_w"
    { address := "Sheet1!A1:B1", values := [[.num 1, .str ""]],
      formulas := [["1", ""]], numberFormats := [["General", "General"]] }
    { address := "Sheet1!A1:B1", values := [[.num 2, .str ""]],
      formulas := [["2", ""]], numberFormats := [["General", "General"]] }
    "turn_w" "update" (by decide) (by decide) (by decide)

/-! ## Risk preflight lemmas (claim C4) -/

/-- The actual cell count of a snapshot: the number of grid positions of its
values grid. -/
def actualCellCount (snapshot : RangeSnapshot) : Nat :=
  (snapshot.values.map List.length).sum

theorem totalCells_foldl_eq (values : List (List CellValue)) :
    ∀ acc, values.foldl (fun sum row => sum + row.length) acc =
      acc + (values.map List.length).sum := by
  induction values with
  | nil => intro acc; simp
  | cons row rest ih =>
    intro acc
    simp only [List.foldl_cons, List.map_cons, List.sum_cons, ih]
    omega

theorem computeWriteRisk_totalCells (snapshot : RangeSnapshot) :
    (computeWriteRisk snapshot).totalCells = actualCellCount snapshot := by
  unfold computeWriteRisk actualCellCount
  rw [totalCells_foldl_eq]
  simp

theorem rowRiskCount_eq_zero (formulas : List (List String)) (ri : Nat)
    (hf : ∀ r c, (formulaAt formulas r c).startsWith "=" = false) :
    ∀ (row : List CellValue) (ci : Nat), (∀ v ∈ row, cellHasValue v = false) →
      rowRiskCount formulas ri ci row = (0, 0) := by
  intro row
  induction row with
  | nil => intro ci _; rfl
  | cons v vs ih =>
    intro ci hv
    have hrest := ih (ci + 1) (fun w hw => hv w (List.mem_cons_of_mem v hw))
    simp only [rowRiskCount, hrest, hf ri ci, hv v (List.mem_cons_self v vs)]
    simp

theorem riskCount_eq_zero (formulas : List (List String))
    (hf : ∀ r c, (formulaAt formulas r c).startsWith "=" = false) :
    ∀ (values : List (List CellValue)) (ri : Nat),
      (∀ row ∈ values, ∀ v ∈ row, cellHasValue v = false) →
      riskCount formulas ri values = (0, 0) := by
  intro values
  induction values with
  | nil => intro ri _; rfl
  | cons row rest ih =>
    intro ri hall
    have hrow := rowRiskCount_eq_zero formulas ri hf row 0
      (hall row (List.mem_cons_self row rest))
    have hrest := ih (ri + 1) (fun r hr => hall r (List.mem_cons_of_mem row hr))
    simp [riskCount, hrow, hrest]

/-- **C4.** For a bulk write with a target address: if the target's current
snapshot holds no non-empty value and no formula cell, the preflight either
raises no confirmation at all or raises only the cell-count-threshold
confirmation (never the overwrite one); and whenever the snapshot's actual
cell count exceeds the configured threshold, a confirmation is always
surfaced whose `totalCells` equals that actual cell count. -/
theorem preflightToolRisk_write_spec :
    ∀ (doc : String → RangeSnapshot) (settings : AppSettings) (call : ToolCall),
      (call.name = "write_values" ∨ call.name = "write_formulas") →
      argAddressString call ≠ "" →
      ((∀ row ∈ (doc (argAddressString call)).values, ∀ v ∈ row, cellHasValue v = false) →
        (∀ r c, (formulaAt (doc (argAddressString call)).formulas r c).startsWith "=" = false) →
        (actualCellCount (doc (argAddressString call)) ≤ settings.riskyWriteCellThreshold →
          preflightToolRisk doc call settings = none) ∧
        (∀ conf, preflightToolRisk doc call settings = some conf →
          conf.reason = thresholdRiskMsg (actualCellCount (doc (argAddressString call)))
            settings.riskyWriteCellThreshold)) ∧
      (actualCellCount (doc (argAddressString call)) > settings.riskyWriteCellThreshold →
        ∃ conf, preflightToolRisk doc call settings = some conf ∧
          conf.risky = true ∧
          conf.totalCells = some (actualCellCount (doc (argAddressString call)))) := by
  intro doc settings call hbulk haddr
  have hnw : (call.name == "web_search") = false := by
    rcases hbulk with h | h <;> simp [h]
  have hedit : isEditingTool call.name = true := by
    rcases hbulk with h | h <;> simp [isEditingTool, EDITING_TOOLS, h]
  have hbulkb : (call.name == "write_values" || call.name == "write_formulas") = true := by
    rcases hbulk with h | h <;> simp [h]
  have hflow : preflightToolRisk doc call settings =
      (let risk := computeWriteRisk (doc (argAddressString call))
       if risk.totalCells > settings.riskyWriteCellThreshold then
         some { reason := thresholdRiskMsg risk.totalCells settings.riskyWriteCellThreshold
                risky := true
                overwrittenCells := some risk.nonEmptyCells
                totalCells := some risk.totalCells }
       else if risk.hasFormulaOverwrite || risk.hasNonEmptyOverwrite then
         some { reason := overwriteRiskMsg risk.nonEmptyCells risk.formulaCells
                risky := true
                overwrittenCells := some risk.nonEmptyCells
                totalCells := some risk.totalCells }
       else none) := by
    unfold preflightToolRisk
    rw [if_neg (by simp [hnw]), if_neg (by simp [hedit]), if_pos (by simp [hbulkb]),
      if_neg haddr]
  have htc := computeWriteRisk_totalCells (doc (argAddressString call))
  constructor
  · intro hvals hforms
    have hzero : riskCount (doc (argAddressString call)).formulas 0
        (doc (argAddressString call)).values = (0, 0) :=
      riskCount_eq_zero _ hforms _ 0 hvals
    have hrisk : computeWriteRisk (doc (argAddressString call)) =
        { totalCells := actualCellCount (doc (argAddressString call))
          nonEmptyCells := 0
          formulaCells := 0
          hasFormulaOverwrite := false
          hasNonEmptyOverwrite := false } := by
      unfold computeWriteRisk
      rw [totalCells_foldl_eq, hzero]
      simp [actualCellCount]
    rw [hflow, hrisk]
    simp only [Bool.or_self]
    constructor
    · intro hle
      rw [if_neg (by simp; omega)]
      simp
    · intro conf hconf
      by_cases hgt : actualCellCount (doc (argAddressString call)) >
          settings.riskyWriteCellThreshold
      · rw [if_pos (by simpa using hgt)] at hconf
        have := (Option.some.inj hconf).symm
        rw [this]
      · rw [if_neg (by simpa using hgt)] at hconf
        rw [if_neg (by simp)] at hconf
        exact absurd hconf (by simp)
  · intro hgt
    rw [hflow]
    rw [if_pos (by omega)]
    exact ⟨_, rfl, rfl, by rw [htc]⟩

/-- **C4 witness.** -/
theorem preflightToolRisk_write_spec_witness :
    ∃ conf,
      preflightToolRisk
          (fun _ => { address := "Sheet1!A1:B2",
                      values := [[.str "", .null], [.null, .str ""]],
                      formulas := [["", ""], ["", ""]],
                      numberFormats := [["General", "General"], ["General", "General"]] })
          { name := "write_values",
            args := [("address", .str "Sheet1!A1:B2"), ("values", .arr [])],
            reason := "fill" }
          { approvalMode := false, webSearchEnabled := false, riskyWriteCellThreshold := 3,
            maxTokenBudget := 10000, loggingEnabled := false } = some conf ∧
        conf.risky = true ∧ conf.totalCells = some 4 :=
  (preflightToolRisk_write_spec
      (fun _ => { address := "Sheet1!A1:B2",
                  values := [[.str "", .null], [.null, .str ""]],
                  formulas := [["", ""], ["", ""]],
                  numberFormats := [["General", "General"], ["General", "General"]] })
      { approvalMode := false, webSearchEnabled := false, riskyWriteCellThreshold := 3,
        maxTokenBudget := 10000, loggingEnabled := false }
      { name := "write_values",
        args := [("address", .str "Sheet1!A1:B2"), ("values", .arr [])],
        reason := "fill" }
      (Or.inl rfl) (by decide)).2 (by decide)

/-! ## Citation extraction lemmas (claim C9) -/

/-- One `Map.set` step of `extractCitations`, at the level of addresses. -/
def insertFirstSeen (acc : List String) (n : String) : List String :=
  if acc.any (fun m => m == n) then acc else acc ++ [n]

theorem any_address_eq_map_any (acc : List CitationRef) (n : String) :
    (acc.any (fun r => r.address == n)) =
      ((acc.map CitationRef.address).any (fun m => m == n)) := by
  induction acc with
  | nil => rfl
  | cons a t ih => simp [List.any_cons, ih]

theorem extractCitations_fold_map_address :
    ∀ (ms : List String) (acc : List CitationRef),
      ((ms.foldl
          (fun acc normalized =>
            if acc.any (fun r => r.address == normalized) then acc
            else acc ++ [{ label := normalized, address := normalized }])
          acc).map CitationRef.address) =
        ms.foldl insertFirstSeen (acc.map CitationRef.address) := by
  intro ms
  induction ms with
  | nil => intro acc; rfl
  | cons n rest ih =>
    intro acc
    simp only [List.foldl_cons]
    have hany : (acc.any (fun r => r.address == n)) =
        ((acc.map CitationRef.address).any (fun m => m == n)) :=
      any_address_eq_map_any acc n
    by_cases h : (acc.any (fun r => r.address == n)) = true
    · rw [if_pos h, ih, insertFirstSeen, if_pos (by rw [← hany]; exact h)]
    · rw [if_neg h, ih, insertFirstSeen,
        if_neg (by rw [← hany]; simpa using h)]
      simp

theorem foldl_insertFirstSeen_eq :
    ∀ (ms : List String) (acc : List String),
      ms.foldl insertFirstSeen acc =
        acc ++ specDedupFirstSeen (ms.filter (fun n => !(acc.any (fun m => m == n)))) := by
  intro ms
  induction ms with
  | nil => intro acc; simp [specDedupFirstSeen]
  | cons n rest ih =>
    intro acc
    simp only [List.foldl_cons]
    by_cases h : (acc.any (fun m => m == n)) = true
    · rw [show insertFirstSeen acc n = acc from if_pos h, ih]
      have hfilter : (n :: rest).filter (fun x => !(acc.any (fun m => m == x))) =
          rest.filter (fun x => !(acc.any (fun m => m == x))) := by
        rw [List.filter_cons_of_neg (by simp [h])]
      rw [hfilter]
    · have hfalse : (acc.any (fun m => m == n)) = false := Bool.eq_false_iff.mpr h
      rw [show insertFirstSeen acc n = acc ++ [n] from if_neg h, ih]
      have hpt : ∀ y, (!((acc ++ [n]).any (fun m => m == y))) =
          ((!(acc.any (fun m => m == y))) && (decide (y ≠ n))) := by
        intro y
        by_cases hy : y = n
        · subst hy
          simp [List.any_append, hfalse]
        · have : (n == y) = false := beq_eq_false_iff_ne.mpr (Ne.symm hy)
          simp [List.any_append, this, hy]
      have hfilter1 : (rest.filter (fun y => !((acc ++ [n]).any (fun m => m == y)))) =
          ((rest.filter (fun y => !(acc.any (fun m => m == y)))).filter
            (fun y => y ≠ n)) := by
        rw [List.filter_filter]
        exact List.filter_congr (fun y _ => by rw [hpt y, Bool.and_comm])
      have hfilter2 : (n :: rest).filter (fun x => !(acc.any (fun m => m == x))) =
          n :: rest.filter (fun x => !(acc.any (fun m => m == x))) :=
        List.filter_cons_of_pos (by simp [hfalse])
      rw [hfilter1, hfilter2, specDedupFirstSeen]
      simp

theorem extractCitations_label_eq_address :
    ∀ (ms : List String) (acc : List CitationRef),
      (∀ r ∈ acc, r.label = r.address) →
      ∀ r ∈ ms.foldl
          (fun acc normalized =>
            if acc.any (fun r => r.address == normalized) then acc
            else acc ++ [{ label := normalized, address := normalized }])
          acc, r.label = r.address := by
  intro ms
  induction ms with
  | nil => intro acc hacc; exact hacc
  | cons n rest ih =>
    intro acc hacc
    simp only [List.foldl_cons]
    by_cases h : (acc.any (fun r => r.address == n)) = true
    · rw [if_pos h]
      exact ih acc hacc
    · rw [if_neg h]
      apply ih
      intro r hr
      rcases List.mem_append.mp hr with hl | hr1
      · exact hacc r hl
      · rcases List.mem_singleton.mp hr1 with rfl
        rfl

theorem specDedupFirstSeen_subset :
    ∀ (l : List String), ∀ a ∈ specDedupFirstSeen l, a ∈ l := by
  intro l
  induction l using specDedupFirstSeen.induct with
  | case1 => intro a ha; simp [specDedupFirstSeen] at ha
  | case2 x xs ih =>
    intro a ha
    rw [specDedupFirstSeen] at ha
    rcases List.mem_cons.mp ha with rfl | hmem
    · exact List.mem_cons_self _ _
    · exact List.mem_cons_of_mem x (List.mem_of_mem_filter (ih a hmem))

theorem specDedupFirstSeen_nodup :
    ∀ (l : List String), (specDedupFirstSeen l).Nodup := by
  intro l
  induction l using specDedupFirstSeen.induct with
  | case1 => simp [specDedupFirstSeen]
  | case2 x xs ih =>
    rw [specDedupFirstSeen]
    refine List.nodup_cons.mpr ⟨?_, ih⟩
    intro hmem
    have := specDedupFirstSeen_subset _ _ hmem
    have := List.of_mem_filter this
    simp at this

/-- **C9.** `extractCitations` returns one entry per distinct normalized
address, in first-seen order (its address list is exactly the first-seen
deduplication of the normalized match list, and is duplicate-free, each entry
carrying `label = address`); quoted sheet names normalize to the unquoted
form; and the specification's concrete example yields exactly
`Sheet1!A1` then `Sheet1!A1:C3`. -/
theorem extractCitations_dedup_first_seen_spec :
    (∀ text : String,
      (extractCitations text).map CitationRef.address =
        specDedupFirstSeen (citationMatches text) ∧
      ((extractCitations text).map CitationRef.address).Nodup ∧
      ∀ r ∈ extractCitations text, r.label = r.address) ∧
    extractCitations "Use [[Sheet1!A1]] and [[Sheet1!A1:C3]] and [[Sheet1!A1]]." =
      [{ label := "Sheet1!A1", address := "Sheet1!A1" },
       { label := "Sheet1!A1:C3", address := "Sheet1!A1:C3" }] ∧
    extractCitations "See [[\x27Sheet Name\x27!A1]] and [[Sheet Name!A1]]." =
      [{ label := "Sheet Name!A1", address := "Sheet Name!A1" }] := by
  refine ⟨?_, by decide, by decide⟩
  intro text
  have hmain : (extractCitations text).map CitationRef.address =
      specDedupFirstSeen (citationMatches text) := by
    unfold extractCitations
    rw [extractCitations_fold_map_address]
    rw [foldl_insertFirstSeen_eq]
    simp [List.filter_true]
  refine ⟨hmain, ?_, ?_⟩
  · rw [hmain]
    exact specDedupFirstSeen_nodup _
  · exact extractCitations_label_eq_address _ [] (by intro r hr; cases hr)

/-- **C9 witness.** -/
theorem extractCitations_dedup_first_seen_spec_witness :
    ∀ r ∈ extractCitations "Use [[Sheet1!A1]] and [[Sheet1!A1:C3]] and [[Sheet1!A1]].",
      r.label = r.address :=
  (extractCitations_dedup_first_seen_spec.1
    "Use [[Sheet1!A1]] and [[Sheet1!A1:C3]] and [[Sheet1!A1]].").2.2

/-! ## Validator lemmas (claim C3) -/

theorem find?_eq_of_mem_of_nodup {α β : Type} [DecidableEq β]
    (f : α → β) (key : β) :
    ∀ (l : List α), (l.map f).Nodup → ∀ a ∈ l, f a = key →
      l.find? (fun x => f x == key) = some a := by
  intro l
  induction l with
  | nil => intro _ a ha; cases ha
  | cons b t ih =>
    intro hnodup a ha hk
    rcases List.mem_cons.mp ha with rfl | hmem
    · rw [List.find?_cons_of_pos _ (by simp [hk])]
    · have hne : f b ≠ key := by
        intro hc
        have hbt : f a ∈ t.map f := List.mem_map_of_mem f hmem
        rw [hk, ← hc] at hbt
        exact (List.nodup_cons.mp (by simpa using hnodup)).1 hbt
      rw [List.find?_cons_of_neg _ (by simp [hne])]
      exact ih (List.nodup_cons.mp (by simpa using hnodup)).2 a hmem hk

theorem toolSchemas_names_nodup : (TOOL_SCHEMAS.map ToolSchema.name).Nodup := by
  decide

theorem validate_eq_of_find?_some (call : ToolCall) (schema : ToolSchema)
    (hfind : TOOL_SCHEMAS.find? (fun t => t.name == call.name) = some schema) :
    validateToolCallAgainstSchema call = validateWithSchema call schema := by
  unfold validateToolCallAgainstSchema
  rw [hfind]

theorem validate_eq_of_find?_none (call : ToolCall)
    (hfind : TOOL_SCHEMAS.find? (fun t => t.name == call.name) = none) :
    validateToolCallAgainstSchema call = some (unknownToolMsg call.name) := by
  unfold validateToolCallAgainstSchema
  rw [hfind]

/-- A call is accepted exactly when it names a declared operation, carries
every required argument, carries no undeclared argument under a closed
schema, and every present declared argument matches its declared type. -/
theorem validate_eq_none_iff (call : ToolCall) :
    validateToolCallAgainstSchema call = none ↔
      ∃ schema, schema ∈ TOOL_SCHEMAS ∧ schema.name = call.name ∧
        (∀ key ∈ schema.inputSchema.required, hasArg call.args key = true) ∧
        (schema.inputSchema.additionalProperties = false →
          ∀ p ∈ call.args, schema.inputSchema.properties.any (fun q => q.1 == p.1) = true) ∧
        (∀ q ∈ schema.inputSchema.properties, hasArg call.args q.1 = true →
          valueMatchesSchemaType ((lookupArg call.args q.1).getD .null) q.2.type = true) := by
  constructor
  · intro h
    cases hfind : TOOL_SCHEMAS.find? (fun t => t.name == call.name) with
    | none => rw [validate_eq_of_find?_none call hfind] at h; simp at h
    | some schema =>
      rw [validate_eq_of_find?_some call schema hfind] at h
      unfold validateWithSchema at h
      cases hreq : schema.inputSchema.required.find? (fun key => !hasArg call.args key) with
      | some k => rw [hreq] at h; simp at h
      | none =>
        rw [hreq] at h
        cases hunex : (if schema.inputSchema.additionalProperties = false then
            call.args.find?
              (fun p => !schema.inputSchema.properties.any (fun q => q.1 == p.1))
          else none) with
        | some p => rw [hunex] at h; simp at h
        | none =>
          rw [hunex] at h
          cases htype : schema.inputSchema.properties.find? (fun q =>
              hasArg call.args q.1 &&
                !valueMatchesSchemaType ((lookupArg call.args q.1).getD .null) q.2.type) with
          | some q => rw [htype] at h; simp at h
          | none =>
            refine ⟨schema, List.mem_of_find?_eq_some hfind, ?_, ?_, ?_, ?_⟩
            · have := List.find?_some hfind
              simpa [beq_iff_eq] using this
            · intro key hk
              have := List.find?_eq_none.mp hreq key hk
              simpa using this
            · intro hclosed p hp
              rw [if_pos hclosed] at hunex
              have := List.find?_eq_none.mp hunex p hp
              simpa using this
            · intro q hq hpresent
              have h2 := List.find?_eq_none.mp htype q hq
              cases hmatch : valueMatchesSchemaType ((lookupArg call.args q.1).getD .null)
                  q.2.type with
              | false => exact absurd (by simp [hpresent, hmatch]) h2
              | true => rfl
  · rintro ⟨schema, hmem, hname, hreq, hclosed, htypes⟩
    have hfind : TOOL_SCHEMAS.find? (fun t => t.name == call.name) = some schema :=
      find?_eq_of_mem_of_nodup ToolSchema.name call.name TOOL_SCHEMAS
        toolSchemas_names_nodup schema hmem hname
    rw [validate_eq_of_find?_some call schema hfind]
    unfold validateWithSchema
    have hreqn : schema.inputSchema.required.find? (fun key => !hasArg call.args key) = none :=
      List.find?_eq_none.mpr (fun k hk => by simp [hreq k hk])
    rw [hreqn]
    have hunexn : (if schema.inputSchema.additionalProperties = false then
        call.args.find? (fun p => !schema.inputSchema.properties.any (fun q => q.1 == p.1))
      else none) = none := by
      by_cases hap : schema.inputSchema.additionalProperties = false
      · rw [if_pos hap]
        exact List.find?_eq_none.mpr (fun p hp => by simp [hclosed hap p hp])
      · rw [if_neg hap]
    rw [hunexn]
    have htypen : schema.inputSchema.properties.find? (fun q =>
        hasArg call.args q.1 &&
          !valueMatchesSchemaType ((lookupArg call.args q.1).getD .null) q.2.type) = none := by
      apply List.find?_eq_none.mpr
      intro q hq
      by_cases hh : hasArg call.args q.1 = true
      · simp [hh, htypes q hq hh]
      · simp [Bool.eq_false_iff.mpr hh]
    rw [htypen]

theorem validate_missing_required (call : ToolCall) (schema : ToolSchema)
    (hmem : schema ∈ TOOL_SCHEMAS) (hname : schema.name = call.name)
    (hmiss : ∃ key ∈ schema.inputSchema.required, hasArg call.args key = false) :
    ∃ key ∈ schema.inputSchema.required, hasArg call.args key = false ∧
      validateToolCallAgainstSchema call = some (missingArgMsg key) := by
  have hfind : TOOL_SCHEMAS.find? (fun t => t.name == call.name) = some schema :=
    find?_eq_of_mem_of_nodup ToolSchema.name call.name TOOL_SCHEMAS
      toolSchemas_names_nodup schema hmem hname
  have hsome : (schema.inputSchema.required.find? (fun key => !hasArg call.args key)).isSome := by
    rw [List.find?_isSome]
    obtain ⟨k, hk, hf⟩ := hmiss
    exact ⟨k, hk, by simp [hf]⟩
  obtain ⟨k, hk⟩ := Option.isSome_iff_exists.mp hsome
  refine ⟨k, List.mem_of_find?_eq_some hk, ?_, ?_⟩
  · have := List.find?_some hk
    simpa using this
  · rw [validate_eq_of_find?_some call schema hfind]
    unfold validateWithSchema
    rw [hk]

theorem validate_unexpected_arg (call : ToolCall) (schema : ToolSchema)
    (hmem : schema ∈ TOOL_SCHEMAS) (hname : schema.name = call.name)
    (hreq : ∀ key ∈ schema.inputSchema.required, hasArg call.args key = true)
    (hclosed : schema.inputSchema.additionalProperties = false)
    (hex : ∃ p ∈ call.args, schema.inputSchema.properties.any (fun q => q.1 == p.1) = false) :
    ∃ key, (∃ v, (key, v) ∈ call.args) ∧
      schema.inputSchema.properties.any (fun q => q.1 == key) = false ∧
      validateToolCallAgainstSchema call = some (unexpectedArgMsg key) := by
  have hfind : TOOL_SCHEMAS.find? (fun t => t.name == call.name) = some schema :=
    find?_eq_of_mem_of_nodup ToolSchema.name call.name TOOL_SCHEMAS
      toolSchemas_names_nodup schema hmem hname
  have hreqn : schema.inputSchema.required.find? (fun key => !hasArg call.args key) = none :=
    List.find?_eq_none.mpr (fun k hk => by simp [hreq k hk])
  have hsome : (call.args.find?
      (fun p => !schema.inputSchema.properties.any (fun q => q.1 == p.1))).isSome := by
    rw [List.find?_isSome]
    obtain ⟨p, hp, hf⟩ := hex
    exact ⟨p, hp, by simp [hf]⟩
  obtain ⟨p, hp⟩ := Option.isSome_iff_exists.mp hsome
  refine ⟨p.1, ⟨p.2, List.mem_of_find?_eq_some hp⟩, ?_, ?_⟩
  · have := List.find?_some hp
    simpa using this
  · rw [validate_eq_of_find?_some call schema hfind]
    unfold validateWithSchema
    rw [hreqn, if_pos hclosed, hp]

theorem validate_bad_type (call : ToolCall) (schema : ToolSchema)
    (hmem : schema ∈ TOOL_SCHEMAS) (hname : schema.name = call.name)
    (hreq : ∀ key ∈ schema.inputSchema.required, hasArg call.args key = true)
    (hclosedok : schema.inputSchema.additionalProperties = false →
      ∀ p ∈ call.args, schema.inputSchema.properties.any (fun q => q.1 == p.1) = true)
    (hex : ∃ q ∈ schema.inputSchema.properties, hasArg call.args q.1 = true ∧
      valueMatchesSchemaType ((lookupArg call.args q.1).getD .null) q.2.type = false) :
    ∃ q ∈ schema.inputSchema.properties, hasArg call.args q.1 = true ∧
      ∃ t, q.2.type = some t ∧
        validateToolCallAgainstSchema call = some (invalidTypeMsg q.1 t) := by
  have hfind : TOOL_SCHEMAS.find? (fun t => t.name == call.name) = some schema :=
    find?_eq_of_mem_of_nodup ToolSchema.name call.name TOOL_SCHEMAS
      toolSchemas_names_nodup schema hmem hname
  have hreqn : schema.inputSchema.required.find? (fun key => !hasArg call.args key) = none :=
    List.find?_eq_none.mpr (fun k hk => by simp [hreq k hk])
  have hunexn : (if schema.inputSchema.additionalProperties = false then
      call.args.find? (fun p => !schema.inputSchema.properties.any (fun q => q.1 == p.1))
    else none) = none := by
    by_cases hap : schema.inputSchema.additionalProperties = false
    · rw [if_pos hap]
      exact List.find?_eq_none.mpr (fun p hp => by simp [hclosedok hap p hp])
    · rw [if_neg hap]
  have hsome : (schema.inputSchema.properties.find? (fun q =>
      hasArg call.args q.1 &&
        !valueMatchesSchemaType ((lookupArg call.args q.1).getD .null) q.2.type)).isSome := by
    rw [List.find?_isSome]
    obtain ⟨q, hq, hpres, hf⟩ := hex
    exact ⟨q, hq, by simp [hpres, hf]⟩
  obtain ⟨q, hq⟩ := Option.isSome_iff_exists.mp hsome
  have hpred := List.find?_some hq
  have hpres : hasArg call.args q.1 = true := by
    have := (Bool.and_eq_true _ _).mp hpred
    exact this.1
  have hmismatch : valueMatchesSchemaType ((lookupArg call.args q.1).getD .null) q.2.type
      = false := by
    have := (Bool.and_eq_true _ _).mp hpred
    simpa using this.2
  have htsome : ∃ t, q.2.type = some t := by
    cases ht : q.2.type with
    | none =>
      rw [ht] at hmismatch
      simp [valueMatchesSchemaType] at hmismatch
    | some t => exact ⟨t, rfl⟩
  obtain ⟨t, ht⟩ := htsome
  refine ⟨q, List.mem_of_find?_eq_some hq, hpres, t, ht, ?_⟩
  rw [validate_eq_of_find?_some call schema hfind]
  unfold validateWithSchema
  rw [hreqn, hunexn, hq]
  show some (invalidTypeMsg q.1 (q.2.type.getD "undefined")) = some (invalidTypeMsg q.1 t)
  rw [ht]
  rfl

/-- **C3.** Tool-call validation: the acceptance characterization (a call is
valid exactly when it names a declared operation with all required arguments
present, no undeclared argument under a closed schema, and correctly typed
declared arguments), and the single failure reason chosen first-failure-wins
in the fixed order -- unknown operation, then a missing required argument
(the message naming that argument), then an undeclared argument, then a
mismatched declared type. -/
theorem validateToolCall_first_failure_spec :
    ∀ call : ToolCall,
      (validateToolCallAgainstSchema call = none ↔
        ∃ schema, schema ∈ TOOL_SCHEMAS ∧ schema.name = call.name ∧
          (∀ key ∈ schema.inputSchema.required, hasArg call.args key = true) ∧
          (schema.inputSchema.additionalProperties = false →
            ∀ p ∈ call.args,
              schema.inputSchema.properties.any (fun q => q.1 == p.1) = true) ∧
          (∀ q ∈ schema.inputSchema.properties, hasArg call.args q.1 = true →
            valueMatchesSchemaType ((lookupArg call.args q.1).getD .null) q.2.type = true)) ∧
      ((∀ schema ∈ TOOL_SCHEMAS, schema.name ≠ call.name) →
        validateToolCallAgainstSchema call = some (unknownToolMsg call.name)) ∧
      (∀ schema ∈ TOOL_SCHEMAS, schema.name = call.name →
        (∃ key ∈ schema.inputSchema.required, hasArg call.args key = false) →
        ∃ key ∈ schema.inputSchema.required, hasArg call.args key = false ∧
          validateToolCallAgainstSchema call = some (missingArgMsg key)) ∧
      (∀ schema ∈ TOOL_SCHEMAS, schema.name = call.name →
        (∀ key ∈ schema.inputSchema.required, hasArg call.args key = true) →
        schema.inputSchema.additionalProperties = false →
        (∃ p ∈ call.args,
          schema.inputSchema.properties.any (fun q => q.1 == p.1) = false) →
        ∃ key, (∃ v, (key, v) ∈ call.args) ∧
          schema.inputSchema.properties.any (fun q => q.1 == key) = false ∧
          validateToolCallAgainstSchema call = some (unexpectedArgMsg key)) ∧
      (∀ schema ∈ TOOL_SCHEMAS, schema.name = call.name →
        (∀ key ∈ schema.inputSchema.required, hasArg call.args key = true) →
        (schema.inputSchema.additionalProperties = false →
          ∀ p ∈ call.args,
            schema.inputSchema.properties.any (fun q => q.1 == p.1) = true) →
        (∃ q ∈ schema.inputSchema.properties, hasArg call.args q.1 = true ∧
          valueMatchesSchemaType ((lookupArg call.args q.1).getD .null) q.2.type = false) →
        ∃ q ∈ schema.inputSchema.properties, hasArg call.args q.1 = true ∧
          ∃ t, q.2.type = some t ∧
            validateToolCallAgainstSchema call = some (invalidTypeMsg q.1 t)) := by
  intro call
  refine ⟨validate_eq_none_iff call, ?_, ?_, ?_, ?_⟩
  · intro hnone
    apply validate_eq_of_find?_none
    apply List.find?_eq_none.mpr
    intro schema hs
    simpa using hnone schema hs
  · intro schema hmem hname hmiss
    exact validate_missing_required call schema hmem hname hmiss
  · intro schema hmem hname hreq hclosed hex
    exact validate_unexpected_arg call schema hmem hname hreq hclosed hex
  · intro schema hmem hname hreq hclosedok hex
    exact validate_bad_type call schema hmem hname hreq hclosedok hex

/-- **C3 witness.** -/
theorem validateToolCall_first_failure_spec_witness :
    ∃ key ∈ (InputSchema.required
        { properties := [("address", { type := some "string" }),
                         ("values", { type := some "array", itemsType := some "array" }),
                         ("reason", { type := some "string" })],
          required := ["address", "values"] }),
      hasArg [("address", Json.str "Sheet1!A1")] key = false ∧
        validateToolCallAgainstSchema
          { name := "write_values", args := [("address", Json.str "Sheet1!A1")],
            reason := "w" } = some (missingArgMsg key) :=
  (validateToolCall_first_failure_spec
      { name := "write_values", args := [("address", Json.str "Sheet1!A1")],
        reason := "w" }).2.2.1
    { name := "write_values",
      description := "Write cell values to a range.",
      inputSchema := { properties := [("address", { type := some "string" }),
                                      ("values", { type := some "array", itemsType := some "array" }),
                                      ("reason", { type := some "string" })],
                       required := ["address", "values"] } }
    (by decide) (by decide) ⟨"values", by decide, by decide⟩

/-- **C10.** The validator checks only required keys, undeclared keys and
top-level primitive types: a `getPrecedents` call with `depth = 0` (below the
schema's declared `minimum` of 1) is accepted, and a `write_values` call
whose `values` array holds non-array items (despite the schema's declared
`items` type `array`) is accepted. -/
theorem validator_ignores_nested_constraints :
    validateToolCallAgainstSchema
      { name := "getPrecedents",
        args := [("address", Json.str "Sheet1!A1"), ("depth", Json.num 0)],
        reason := "trace" } = none ∧
    (∃ s ∈ TOOL_SCHEMAS, s.name = "getPrecedents" ∧
      ∃ p ∈ s.inputSchema.properties, p.1 = "depth" ∧ p.2.minimum = some 1 ∧
        (0 : Int) < 1) ∧
    validateToolCallAgainstSchema
      { name := "write_values",
        args := [("address", Json.str "Sheet1!A1"),
                 ("values", Json.arr [Json.str "x", Json.num 2])],
        reason := "w" } = none ∧
    (∃ s ∈ TOOL_SCHEMAS, s.name = "write_values" ∧
      ∃ p ∈ s.inputSchema.properties, p.1 = "values" ∧ p.2.itemsType = some "array") := by
  refine ⟨by decide, ?_, by decide, ?_⟩
  · exact ⟨TOOL_SCHEMAS.get ⟨3, by decide⟩, by decide, by decide⟩
  · exact ⟨TOOL_SCHEMAS.get ⟨9, by decide⟩, by decide, by decide⟩

/-! ## Orchestrator theorems (claims C6, C7) -/

/-- **C6.** When the estimated total still exceeds the configured budget
after the whole degradation ladder, the turn ends with the budget-exceeded
assistant message as its only session message and the orchestrator loop makes
no provider completion call.  (The compaction helper's internal summarization
call belongs to the ladder itself, not to the turn's completion loop.) -/
theorem budget_exceeded_fails_clean :
    ∀ (env : OrchestratorEnv) (messages : List HistMsg),
      postLadderEstimate env messages > env.settings.maxTokenBudget →
      (runTurnModel env messages).outcome = .budgetExceeded ∧
      (runTurnModel env messages).notices =
        [budgetExceededMsg env.settings.maxTokenBudget] ∧
      (runTurnModel env messages).finalAnswer = none ∧
      (runTurnModel env messages).completionCalls = 0 := by
  intro env messages h
  unfold runTurnModel
  rw [if_pos h]
  exact ⟨rfl, rfl, rfl, rfl⟩

/-- **C6 witness.** -/
theorem budget_exceeded_fails_clean_witness :
    (runTurnModel
        { settings := { approvalMode := false, webSearchEnabled := false,
                        riskyWriteCellThreshold := 100, maxTokenBudget := 0,
                        loggingEnabled := false },
          systemPrompt := "You are a spreadsheet assistant.",
          toolsJson := "[]",
          contextJson := fun _ => "workbook context",
          selectionAddress := "Sheet1!A1",
          memory0 := none,
          compacted := fun h => h,
          compactionSummary := fun _ => "",
          doc := fun _ => { address := "A1", values := [], formulas := [], numberFormats := [] },
          responses := fun _ => .ok false "" { name := "listCharts", args := [], reason := "r" },
          streamed := fun _ => none,
          approvals := fun _ => true }
        []).completionCalls = 0 :=
  (budget_exceeded_fails_clean
      { settings := { approvalMode := false, webSearchEnabled := false,
                      riskyWriteCellThreshold := 100, maxTokenBudget := 0,
                      loggingEnabled := false },
        systemPrompt := "You are a spreadsheet assistant.",
        toolsJson := "[]",
        contextJson := fun _ => "workbook context",
        selectionAddress := "Sheet1!A1",
        memory0 := none,
        compacted := fun h => h,
        compactionSummary := fun _ => "",
        doc := fun _ => { address := "A1", values := [], formulas := [], numberFormats := [] },
        responses := fun _ => .ok false "" { name := "listCharts", args := [], reason := "r" },
        streamed := fun _ => none,
        approvals := fun _ => true }
      [] (by decide)).2.2.2

theorem runLoop_busy_false (env : OrchestratorEnv) :
    ∀ (fuel : Nat) (acc : LoopAcc), (runLoop env fuel acc).busy = false := by
  intro fuel
  induction fuel with
  | zero => intro acc; rfl
  | succ n ih =>
    intro acc
    unfold runLoop
    cases env.responses acc.iterIndex with
    | throws m => rfl
    | ok kf text call =>
      dsimp only
      split
      · split
        · exact ih _
        · rfl
      · split
        · exact ih _
        · exact ih _

theorem runLoop_iterations_le (env : OrchestratorEnv) :
    ∀ (fuel : Nat) (acc : LoopAcc),
      (runLoop env fuel acc).iterations ≤ acc.iterIndex + fuel := by
  intro fuel
  induction fuel with
  | zero => intro acc; exact Nat.le_refl _
  | succ n ih =>
    intro acc
    unfold runLoop
    cases env.responses acc.iterIndex with
    | throws m => dsimp only; omega
    | ok kf text call =>
      dsimp only
      split
      · split
        · refine Nat.le_trans (ih _) ?_
          dsimp only
          omega
        · dsimp only; omega
      · split
        · refine Nat.le_trans (ih _) ?_
          dsimp only
          omega
        · refine Nat.le_trans (ih _) ?_
          dsimp only
          omega

theorem runLoop_iterationLimit_messages (env : OrchestratorEnv) :
    ∀ (fuel : Nat) (acc : LoopAcc),
      (runLoop env fuel acc).outcome = .iterationLimit →
      (runLoop env fuel acc).notices = [iterationLimitMsg] ∧
      (runLoop env fuel acc).finalAnswer = none := by
  intro fuel
  induction fuel with
  | zero => intro acc _; exact ⟨rfl, rfl⟩
  | succ n ih =>
    intro acc
    unfold runLoop
    cases env.responses acc.iterIndex with
    | throws m => intro h; exact absurd h (by simp)
    | ok kf text call =>
      dsimp only
      split
      · split
        · exact ih _
        · intro h; exact absurd h (by simp)
      · split
        · exact ih _
        · exact ih _

/-- **C7.** The orchestrator loop runs at most `MAX_TOOL_ITERATIONS = 8`
iterations; when it exhausts them without finalizing, the session receives
exactly one assistant notice, the iteration-limit message (and no finalized
answer); and the busy flag is cleared at the end of the turn on every path
(final answer, budget failure, iteration limit, or a provider error caught
at the turn boundary). -/
theorem iteration_limit_and_busy_spec :
    ∀ (env : OrchestratorEnv) (messages : List HistMsg),
      MAX_TOOL_ITERATIONS = 8 ∧
      (runTurnModel env messages).iterations ≤ MAX_TOOL_ITERATIONS ∧
      (runTurnModel env messages).busy = false ∧
      ((runTurnModel env messages).outcome = .iterationLimit →
        (runTurnModel env messages).notices = [iterationLimitMsg] ∧
        (runTurnModel env messages).finalAnswer = none) := by
  intro env messages
  refine ⟨rfl, ?_, ?_, ?_⟩
  · unfold runTurnModel
    by_cases h : postLadderEstimate env messages > env.settings.maxTokenBudget
    · rw [if_pos h]
      exact Nat.zero_le _
    · rw [if_neg h]
      have := runLoop_iterations_le env MAX_TOOL_ITERATIONS
        { jsonRetry := false, toolRetry := false, iterIndex := 0, calls := 0, draft := none }
      simpa using this
  · unfold runTurnModel
    by_cases h : postLadderEstimate env messages > env.settings.maxTokenBudget
    · rw [if_pos h]
    · rw [if_neg h]
      exact runLoop_busy_false env MAX_TOOL_ITERATIONS _
  · unfold runTurnModel
    by_cases h : postLadderEstimate env messages > env.settings.maxTokenBudget
    · rw [if_pos h]
      intro hc
      exact absurd hc (by simp)
    · rw [if_neg h]
      exact runLoop_iterationLimit_messages env MAX_TOOL_ITERATIONS _

/-- **C7 witness.** -/
theorem iteration_limit_and_busy_spec_witness :
    (runTurnModel
        { settings := { approvalMode := false, webSearchEnabled := false,
                        riskyWriteCellThreshold := 100, maxTokenBudget := 100000,
                        loggingEnabled := false },
          systemPrompt := "You are a spreadsheet assistant.",
          toolsJson := "[]",
          contextJson := fun _ => "workbook context",
          selectionAddress := "Sheet1!A1",
          memory0 := none,
          compacted := fun h => h,
          compactionSummary := fun _ => "",
          doc := fun _ => { address := "A1", values := [], formulas := [], numberFormats := [] },
          responses := fun _ => .ok false "" { name := "listCharts", args := [], reason := "r" },
          streamed := fun _ => none,
          approvals := fun _ => true }
        []).notices = [iterationLimitMsg] :=
  ((iteration_limit_and_busy_spec
      { settings := { approvalMode := false, webSearchEnabled := false,
                      riskyWriteCellThreshold := 100, maxTokenBudget := 100000,
                      loggingEnabled := false },
        systemPrompt := "You are a spreadsheet assistant.",
        toolsJson := "[]",
        contextJson := fun _ => "workbook context",
        selectionAddress := "Sheet1!A1",
        memory0 := none,
        compacted := fun h => h,
        compactionSummary := fun _ => "",
        doc := fun _ => { address := "A1", values := [], formulas := [], numberFormats := [] },
        responses := fun _ => .ok false "" { name := "listCharts", args := [], reason := "r" },
        streamed := fun _ => none,
        approvals := fun _ => true }
      []).2.2.2 (by decide)).1

end ExcelAI
